import Mathlib

/-!
Verification of `src/features/editing/editorManager.ts`.

The file shallowly embeds the two classes of the source file — `EditorManager`
and `Editor` — as Lean state types with explicit step functions, one per event
handler registered in the source.  Host objects (vscode `Uri`, `FileStat`,
webview panels, promises) are modelled by plain data: promise results become
`Except`, `Date.now()` becomes an explicit `Nat` argument, and the side effects
that the claims observe (webview HTML assignment, posted messages, `setContext`
broadcasts) become fields of the state records.
-/

namespace BpmnEditor

/-- Model of the host `vscode.Uri`: the components of a parsed resource
identifier. -/
structure Uri where
  scheme : String
  authority : String
  path : String
  query : String
  fragment : String
deriving DecidableEq, Repr

/-- Model of `uri.with({ query })`, as used at line 167 of the source. -/
def Uri.withQuery (u : Uri) (q : String) : Uri :=
  { u with query := q }

/-- Model of `uri.toString(true)` (skip-encoding rendering):
`scheme://authority` then the path, then `?query` and `#fragment` when those
components are non-empty. -/
def Uri.toStr (u : Uri) : String :=
  u.scheme ++ "://" ++ u.authority ++ u.path
    ++ (if u.query = "" then "" else "?" ++ u.query)
    ++ (if u.fragment = "" then "" else "#" ++ u.fragment)

/-- Model of `vscode.FileStat`: only the `size` field is consulted by the
editor (line 158). -/
structure FileStat where
  size : Nat
deriving DecidableEq, Repr

/-- Model of a filesystem error carried by a rejected `workspace.fs.stat`
promise. -/
inductive FsError where
  | enoent
  | other
deriving DecidableEq, Repr

/-- The `const enum PreviewState` of the source (lines 45-49). -/
inductive PreviewState where
  | Disposed
  | Visible
  | Active
deriving DecidableEq, Repr

/-- The `Editor.emptyPngDataUri` constant (line 55): a 1x1 transparent PNG as
a data URI. -/
def emptyPngDataUri : String :=
  "data:image/png;base64,iVBORw0KGgoAAAANSUhEUgAAAAEAAAABCAYAAAAfFcSJAAAAEElEQVR42gEFAPr/AP///wAI/AL+Sr4t6gAAAABJRU5ErkJggg=="

/-- Embedding of `Editor.getResourcePath` (lines 155-168).  `toWebview` models
`webviewEditor.webview.asWebviewUri`; the `fs.stat` call performed when the
scheme is `git` is modelled by the `statResult` argument (the value the
awaited promise settles to), so a rejected stat makes the whole async method
reject, which the `Except` return type records. -/
def getResourcePath (toWebview : Uri → Uri) (resource : Uri)
    (statResult : Except FsError FileStat) (version : String) :
    Except FsError String :=
  if resource.scheme = "git" then
    match statResult with
    | .error err => .error err
    | .ok stat =>
      if stat.size = 0 then
        .ok emptyPngDataUri
      else if resource.query ≠ "" then
        .ok (Uri.toStr (toWebview resource))
      else
        .ok (Uri.toStr (Uri.withQuery (toWebview resource) ("version=" ++ version)))
  else if resource.query ≠ "" then
    .ok (Uri.toStr (toWebview resource))
  else
    .ok (Uri.toStr (Uri.withQuery (toWebview resource) ("version=" ++ version)))

/-- Modelled from the spec: the shared disposal-tracking helper (the
`Disposable` base class imported from `../../dispose`, which is not under
`src/`): each listener/watcher registered through `_register` is attached to
it, and the helper releases everything en masse when its release method is
invoked. -/
structure DisposeTracker where
  registered : Nat
  released : Bool
deriving DecidableEq, Repr

/-- Modelled from the spec: one `_register` call attaches one more
listener/watcher to the disposal-tracking helper. -/
def DisposeTracker.registerOne (t : DisposeTracker) : DisposeTracker :=
  { t with registered := t.registered + 1 }

/-- Modelled from the spec: the helper's en-masse release of everything
registered. -/
def DisposeTracker.release (t : DisposeTracker) : DisposeTracker :=
  { t with released := true }

/-- State of one `Editor` instance (lines 51-175): the `_editorState` field,
the bound resource, the observable webview side effects (assigned HTML, a
count of HTML assignments, the posted `setActive` messages in order), and
the disposal-tracking helper the registered listeners and the watcher are
attached to. -/
structure EditorState where
  editorState : PreviewState
  resource : Uri
  html : Option String
  htmlAssignments : Nat
  postedActive : List Bool
  tracker : DisposeTracker
deriving DecidableEq, Repr

/-- Embedding of `Editor.update` (lines 112-124).  `panelActive` is the value
of `this.webviewEditor.active` read by the call.  The empty conditional of
lines 120-121 performs no action and leaves no trace here. -/
def update (panelActive : Bool) (e : EditorState) : EditorState :=
  if e.editorState = PreviewState.Disposed then
    e
  else if panelActive then
    { e with editorState := PreviewState.Active }
  else
    { e with editorState := PreviewState.Visible }

/-- Embedding of `escapeAttribute` (lines 177-179): replace every double
quote by `&quot;`. -/
def escapeAttribute (value : String) : String :=
  value.replace "\"" "&quot;"

/-- Model of the JSON string escaping `JSON.stringify` applies to a string
value (backslash and double quote escaped). -/
def jsonEscapeString (s : String) : String :=
  (s.replace "\\" "\\\\").replace "\"" "\\\""

/-- Model of `JSON.stringify` on the two-field `settings` object literal of
lines 128-131: a JSON object with the fields `isMac` and `src`. -/
def settingsJson (isMac : Bool) (src : String) : String :=
  "\x7b\"isMac\":" ++ (if isMac then "true" else "false")
    ++ ",\"src\":\"" ++ jsonEscapeString src ++ "\"\x7d"

/-- Embedding of the HTML template of `Editor.getWebiewContents`
(lines 135-152), with the interpolation holes (`cspSource`, `nonce` twice,
the escaped settings attribute) as arguments. -/
def htmlTemplate (cspSource : String) (nonce : String) (settingsAttr : String) : String :=
  "<!DOCTYPE html>\n<html lang=\"en\">\n<head>\n\t<meta charset=\"UTF-8\">\n\n\t<!-- Disable pinch zooming -->\n\t<meta name=\"viewport\"\n\t\tcontent=\"width=device-width, initial-scale=1.0, maximum-scale=1.0, minimum-scale=1.0, user-scalable=no\">\n\n\t<title>foo</title\n\n\t<meta http-equiv=\"Content-Security-Policy\" content=\"default-src \x27none\x27; img-src \x27self\x27 data: "
    ++ cspSource
    ++ "; script-src \x27nonce-"
    ++ nonce
    ++ "\x27; style-src \x27self\x27 \x27nonce-"
    ++ nonce
    ++ "\x27;\">\n\t<meta id=\"image-preview-settings\" data-settings=\""
    ++ settingsAttr
    ++ "\">\n</head>\n<body>\n\tHello world\n</body>\n</html>"

/-- Embedding of `Editor.getWebiewContents` (lines 126-153).  The two
`Date.now()` reads (line 127 for `version`, line 133 for `nonce`) are the
arguments `versionNow` and `nonceNow`, stringified exactly as
`Number.prototype.toString` renders a timestamp (decimal digits, modelled by
`Nat.repr`); `isMac` models `process.platform === "darwin"`; a rejected stat
inside `getResourcePath` rejects the whole method (the `await` of line 130
rethrows). -/
def getWebiewContents (toWebview : Uri → Uri) (cspSource : String) (isMac : Bool)
    (resource : Uri) (statResult : Except FsError FileStat)
    (versionNow nonceNow : Nat) : Except FsError String :=
  match getResourcePath toWebview resource statResult (Nat.repr versionNow) with
  | .error err => .error err
  | .ok src =>
    .ok (htmlTemplate cspSource (Nat.repr nonceNow)
      (escapeAttribute (settingsJson isMac src)))

/-- Embedding of `Editor.render` (lines 106-110): when the state is not
Disposed, await the contents and assign `webview.html`; when the awaited
promise rejects the assignment is never reached.  `contents` is the settled
value of the `getWebiewContents` call. -/
def render (contents : Except FsError String) (e : EditorState) : EditorState :=
  if e.editorState ≠ PreviewState.Disposed then
    match contents with
    | .ok h => { e with html := some h, htmlAssignments := e.htmlAssignments + 1 }
    | .error _ => e
  else
    e

/-- Embedding of the `onDidChangeViewState` handler registered at
lines 75-78: run `update` with the panel's current `active` flag, then post
a `setActive` message carrying that flag. -/
def handleViewState (panelActive : Bool) (e : EditorState) : EditorState :=
  let e1 := update panelActive e
  { e1 with postedActive := e1.postedActive ++ [panelActive] }

/-- Embedding of the `onDidDispose` handler registered at lines 80-82: set
`_editorState` to Disposed.  Nothing else runs; in particular the
disposal-tracking helper's release is not invoked anywhere in the source. -/
def handleDispose (e : EditorState) : EditorState :=
  { e with editorState := PreviewState.Disposed }

/-- Embedding of the watcher `onDidChange` handler (lines 85-89): trigger
`render` exactly when the reported URI prints equal to the bound resource.
`contents` is the settled value the triggered render would await. -/
def handleFsChange (eventUri : Uri) (contents : Except FsError String)
    (e : EditorState) : EditorState :=
  if Uri.toStr eventUri = Uri.toStr e.resource then
    render contents e
  else
    e

/-- Embedding of the watcher `onDidDelete` handler (lines 91-95) as seen by
the Editor: when the reported URI matches the bound resource the panel is
disposed, which delivers the panel dispose event to the handler of
lines 80-82. -/
def handleFsDelete (eventUri : Uri) (e : EditorState) : EditorState :=
  if Uri.toStr eventUri = Uri.toStr e.resource then
    handleDispose e
  else
    e

/-- Embedding of the stat-probe wiring of lines 97-99:
`vscode.workspace.fs.stat(resource).then(() => { this.update(); })`.  The
single `then` argument is the fulfillment handler, so `update` runs only
when the probe fulfills; a rejection flows past it with no handler attached.
The returned Bool records whether `update` was invoked by the
continuation. -/
def statProbeThen (outcome : Except FsError FileStat) (panelActive : Bool)
    (e : EditorState) : EditorState × Bool :=
  match outcome with
  | .ok _ => (update panelActive e, true)
  | .error _ => (e, false)

/-- Embedding of the synchronous part of the `Editor` constructor
(lines 57-104): five `_register` calls (view-state listener at line 75,
dispose listener at line 80, filesystem watcher at line 84, watcher change
listener at line 85, watcher delete listener at line 91), then one render
with the initially awaited contents, one update, and the initial `setActive`
message.  `initialContents` is the settled value of the first
`getWebiewContents` call and `panelActive` the panel's focus flag during
construction. -/
def mkEditor (resource : Uri) (initialContents : Except FsError String)
    (panelActive : Bool) : EditorState :=
  let e0 : EditorState :=
    { editorState := PreviewState.Visible
      resource := resource
      html := none
      htmlAssignments := 0
      postedActive := []
      tracker := { registered := 0, released := false } }
  let e1 := { e0 with tracker :=
    e0.tracker.registerOne.registerOne.registerOne.registerOne.registerOne }
  let e2 := render initialContents e1
  let e3 := update panelActive e2
  { e3 with postedActive := e3.postedActive ++ [panelActive] }

/-- Notifications the host can deliver to one Editor after construction: a
view-state change carrying the panel's focus flag, or the panel's
disposal. -/
inductive EditorEvent where
  | viewState (active : Bool)
  | panelDispose
deriving DecidableEq, Repr

/-- Deliver one notification to the Editor, dispatching to the handler the
constructor registered for it. -/
def editorStep (e : EditorState) : EditorEvent → EditorState
  | .viewState active => handleViewState active e
  | .panelDispose => handleDispose e

/-- Deliver a sequence of notifications in order. -/
def runEditor (e : EditorState) (evs : List EditorEvent) : EditorState :=
  evs.foldl editorStep e

/-- True when the sequence contains a disposal notification. -/
def disposedEver (evs : List EditorEvent) : Bool :=
  evs.any fun ev => ev = EditorEvent.panelDispose

/-- The last focus value reported strictly by the sequence itself, when
any. -/
def lastFocusOpt : List EditorEvent → Option Bool
  | [] => none
  | EditorEvent.viewState b :: t =>
    match lastFocusOpt t with
    | some c => some c
    | none => some b
  | EditorEvent.panelDispose :: t => lastFocusOpt t

/-- The panel's last reported focus value over a sequence, defaulting to the
construction-time flag `a0` (the constructor itself reads and reports the
panel's focus at lines 102-103) when the sequence reports none. -/
def lastFocus (a0 : Bool) (evs : List EditorEvent) : Bool :=
  (lastFocusOpt evs).getD a0

/-- State of the `EditorManager` (lines 5-43).  `editors` and `activeEditor`
are the `_editors` set and `_activeEditor` field, with editors identified by
the order of their construction (a `new Editor` is a fresh object, distinct
from every other).  `created` and `disposedPanels` are history ghosts
recording which identities have been constructed and which panels have been
disposed; `contextLog` records, in order, every value broadcast through
`setPreviewActiveContext`. -/
structure ManagerState where
  editors : Finset Nat
  activeEditor : Option Nat
  created : Finset Nat
  disposedPanels : Finset Nat
  contextLog : List Bool
deriving DecidableEq

/-- The manager's initial state (lines 7-8): empty editor set, no active
editor. -/
def initManager : ManagerState :=
  { editors := ∅, activeEditor := none, created := ∅, disposedPanels := ∅,
    contextLog := [] }

/-- Embedding of `EditorManager.setActiveEditor` (lines 35-38): store the
value, then unconditionally broadcast the `bpmnEditorFocus` context flag as
`!!value` via `setPreviewActiveContext` (lines 40-42); there is no change
detection. -/
def setActiveEditor (value : Option Nat) (m : ManagerState) : ManagerState :=
  { m with activeEditor := value, contextLog := m.contextLog ++ [value.isSome] }

/-- Embedding of `EditorManager.resolveCustomTextEditor` (lines 14-31) at the
manager level: construct the Editor, add it to the set, make it the active
editor; the two listeners it arms become the `panelDispose` and `viewState`
events below.  A constructed Editor is a fresh object, so an identity
already in `created` is never handed out again; such a call is ignored. -/
def resolveEditor (e : Nat) (m : ManagerState) : ManagerState :=
  if e ∈ m.created then m
  else
    setActiveEditor (some e)
      { m with editors := insert e m.editors, created := insert e m.created }

/-- Embedding of the manager-level `onDidDispose` handler (line 22): delete
the editor from the set, and nothing else — the active reference is not
touched.  The handler exists only for created editors, and a panel delivers
its dispose event once. -/
def managerPanelDispose (e : Nat) (m : ManagerState) : ManagerState :=
  if e ∈ m.created ∧ e ∉ m.disposedPanels then
    { m with editors := m.editors.erase e,
             disposedPanels := insert e m.disposedPanels }
  else m

/-- Embedding of the manager-level `onDidChangeViewState` handler
(lines 24-30): when the panel reports itself active, make its editor the
active editor; when it reports itself inactive and its editor is the active
one, clear the active reference.  The handler exists only for created
editors, and a disposed panel no longer fires view-state events. -/
def managerViewState (e : Nat) (active : Bool) (m : ManagerState) : ManagerState :=
  if e ∈ m.created ∧ e ∉ m.disposedPanels then
    if active then setActiveEditor (some e) m
    else if m.activeEditor = some e then setActiveEditor none m
    else m
  else m

/-- Events the host can deliver to the manager: a request to open a resource
in this editor kind (constructing editor identity `e`), a panel disposal, or
a panel view-state change carrying the panel's `active` flag. -/
inductive ManagerEvent where
  | resolve (e : Nat)
  | panelDispose (e : Nat)
  | viewState (e : Nat) (active : Bool)
deriving DecidableEq, Repr

/-- Deliver one event to the manager. -/
def managerStep (m : ManagerState) : ManagerEvent → ManagerState
  | .resolve e => resolveEditor e m
  | .panelDispose e => managerPanelDispose e m
  | .viewState e active => managerViewState e active m

/-- Run the manager from its initial state over a sequence of events. -/
def runManager (evs : List ManagerEvent) : ManagerState :=
  evs.foldl managerStep initManager

end BpmnEditor

namespace BpmnEditor

/-- C6: for every resource on a source-control virtual filesystem (scheme
`git`) whose reported size is zero, `getResourcePath` returns the fixed 1x1
transparent placeholder data URI, regardless of whether the resource carries
a query string. -/
theorem git_zero_size_placeholder (toWebview : Uri → Uri) (resource : Uri)
    (stat : FileStat) (version : String)
    (hscheme : resource.scheme = "git") (hsize : stat.size = 0) :
    getResourcePath toWebview resource (.ok stat) version = .ok emptyPngDataUri := by
  simp [getResourcePath, hscheme, hsize]

/-- Witness for C6 at a concrete git-scheme resource that carries a non-empty
query string. -/
theorem git_zero_size_placeholder_witness :
    getResourcePath id ⟨"git", "", "/a/diagram.bpmn", "ref=HEAD", ""⟩ (.ok ⟨0⟩) "17"
      = .ok emptyPngDataUri :=
  git_zero_size_placeholder id ⟨"git", "", "/a/diagram.bpmn", "ref=HEAD", ""⟩ ⟨0⟩ "17"
    rfl rfl

/-- C7: away from the zero-size placeholder case, a resource that already
carries a non-empty query string resolves to exactly the webview-URI
conversion of the resource rendered unchanged (no version parameter
appended), while a resource without a query string gets a
`version=timestamp` query appended to the conversion. -/
theorem query_passthrough_version (toWebview : Uri → Uri) (resource : Uri)
    (statResult : Except FsError FileStat) (version : String)
    (h : resource.scheme ≠ "git" ∨ ∃ stat, statResult = .ok stat ∧ stat.size ≠ 0) :
    (resource.query ≠ "" →
      getResourcePath toWebview resource statResult version
        = .ok (Uri.toStr (toWebview resource))) ∧
    (resource.query = "" →
      getResourcePath toWebview resource statResult version
        = .ok (Uri.toStr (Uri.withQuery (toWebview resource) ("version=" ++ version)))) := by
  rcases h with h | ⟨stat, hs, hsz⟩
  · constructor <;> intro hq <;> simp [getResourcePath, h, hq]
  · subst hs
    constructor <;> intro hq <;>
      by_cases hg : resource.scheme = "git" <;>
        simp [getResourcePath, hg, hsz, hq]

/-- Witness for C7 at a concrete non-git resource with a query string: the
result is the bare conversion. -/
theorem query_passthrough_version_witness :
    getResourcePath id ⟨"file", "", "/a/diagram.bpmn", "v=1", ""⟩ (.ok ⟨3⟩) "7"
      = .ok (Uri.toStr (⟨"file", "", "/a/diagram.bpmn", "v=1", ""⟩ : Uri)) :=
  (query_passthrough_version id ⟨"file", "", "/a/diagram.bpmn", "v=1", ""⟩
    (.ok ⟨3⟩) "7" (Or.inl (by decide))).1 (by decide)

/-- C5: once a disposal notification has set the state to Disposed, a render
call leaves the editor exactly as it was (no HTML assignment, no side
effect) and an update call likewise. -/
theorem disposed_render_update_noop (contents : Except FsError String)
    (panelActive : Bool) (e : EditorState)
    (h : e.editorState = PreviewState.Disposed) :
    render contents e = e ∧ update panelActive e = e := by
  constructor
  · simp [render, h]
  · simp [update, h]

/-- Witness for C5 at a concrete disposed editor. -/
theorem disposed_render_update_noop_witness :
    render (Except.ok "x")
        ⟨PreviewState.Disposed, ⟨"file", "", "/a/diagram.bpmn", "", ""⟩, none, 0, [], ⟨5, false⟩⟩
      = ⟨PreviewState.Disposed, ⟨"file", "", "/a/diagram.bpmn", "", ""⟩, none, 0, [], ⟨5, false⟩⟩
    ∧ update true
        ⟨PreviewState.Disposed, ⟨"file", "", "/a/diagram.bpmn", "", ""⟩, none, 0, [], ⟨5, false⟩⟩
      = ⟨PreviewState.Disposed, ⟨"file", "", "/a/diagram.bpmn", "", ""⟩, none, 0, [], ⟨5, false⟩⟩ :=
  disposed_render_update_noop (Except.ok "x") true
    ⟨PreviewState.Disposed, ⟨"file", "", "/a/diagram.bpmn", "", ""⟩, none, 0, [], ⟨5, false⟩⟩ rfl

/-- C2 counterexample: for a freshly constructed editor, a rejected stat
probe does not invoke `update` — the claim that `update()` is subsequently
invoked for both the fulfilled and the rejected outcome fails on the
rejected one, because `.then` at line 97 attaches a fulfillment handler
only. -/
theorem statProbe_update_counterexample :
    (statProbeThen (Except.error FsError.enoent) true
        (mkEditor ⟨"file", "", "/a/diagram.bpmn", "", ""⟩ (Except.ok "h") true)).snd
      = false := rfl

/-- C2 amended: during construction the stat probe is followed by an
`update` pass exactly when the probe fulfills; a rejected probe invokes
nothing — the editor is left untouched and the rejection flows past with no
handler observing it. -/
theorem statProbe_update_iff_fulfilled (outcome : Except FsError FileStat)
    (panelActive : Bool) (e : EditorState) :
    (statProbeThen outcome panelActive e).snd = outcome.isOk
    ∧ (statProbeThen outcome panelActive e).fst
        = (if outcome.isOk then update panelActive e else e) := by
  cases outcome <;> simp [statProbeThen, Except.isOk, Except.toBool]

/-- Rendering never touches the disposal-tracking helper. -/
theorem render_tracker (contents : Except FsError String) (e : EditorState) :
    (render contents e).tracker = e.tracker := by
  unfold render
  split
  · cases contents <;> rfl
  · rfl

/-- Updating never touches the disposal-tracking helper. -/
theorem update_tracker (panelActive : Bool) (e : EditorState) :
    (update panelActive e).tracker = e.tracker := by
  unfold update
  split
  · rfl
  · split <;> rfl

/-- Construction leaves the tracker with the five registrations and no
release. -/
theorem mkEditor_tracker (r : Uri) (c : Except FsError String) (a : Bool) :
    (mkEditor r c a).tracker = ⟨5, false⟩ := by
  simp [mkEditor, render_tracker, update_tracker, DisposeTracker.registerOne]

/-- C3 counterexample: for a concretely constructed editor, delivering the
panel disposal event leaves the disposal-tracking helper unreleased while
its five registered listeners/watchers (including the filesystem watcher)
are still attached — the claimed en-masse release does not happen. -/
theorem dispose_release_counterexample :
    ((handleDispose (mkEditor ⟨"file", "", "/a/diagram.bpmn", "", ""⟩
        (Except.ok "h") false)).tracker.released = false)
    ∧ ((handleDispose (mkEditor ⟨"file", "", "/a/diagram.bpmn", "", ""⟩
        (Except.ok "h") false)).tracker.registered = 5) :=
  ⟨rfl, rfl⟩

/-- C3 amended: the watcher and every listener are attached to the shared
disposal-tracking helper (five registrations by the constructor), but the
panel-disposal handler only marks the lifecycle state Disposed and never
invokes the helper's release, so none of those resources is released at
teardown. -/
theorem dispose_marks_state_only (e : EditorState) (r : Uri)
    (c : Except FsError String) (a : Bool) :
    (handleDispose e).editorState = PreviewState.Disposed
    ∧ (handleDispose e).tracker = e.tracker
    ∧ (mkEditor r c a).tracker = ⟨5, false⟩ :=
  ⟨rfl, rfl, mkEditor_tracker r c a⟩

/-- C10: a view-state notification reporting active always re-executes the
`setContext` broadcast with `true`, even when the reported editor is already
the active one, and resolving a new editor broadcasts `true` again; there is
no change detection before broadcasting. -/
theorem setContext_always_broadcast (m : ManagerState) (e f : Nat)
    (hc : e ∈ m.created) (hd : e ∉ m.disposedPanels) (hf : f ∉ m.created) :
    (managerViewState e true m).contextLog = m.contextLog ++ [true]
    ∧ (managerViewState e true m).activeEditor = some e
    ∧ (resolveEditor f m).contextLog = m.contextLog ++ [true] := by
  refine ⟨?_, ?_, ?_⟩ <;>
    simp [managerViewState, resolveEditor, setActiveEditor, hc, hd, hf]

/-- Witness for C10 at a manager whose active editor is already editor 0 and
has already broadcast once: the re-broadcast still happens. -/
theorem setContext_always_broadcast_witness :
    (managerViewState 0 true ⟨{0}, some 0, {0}, ∅, [true]⟩).contextLog
      = [true] ++ [true]
    ∧ (managerViewState 0 true ⟨{0}, some 0, {0}, ∅, [true]⟩).activeEditor = some 0
    ∧ (resolveEditor 1 ⟨{0}, some 0, {0}, ∅, [true]⟩).contextLog
      = [true] ++ [true] :=
  setContext_always_broadcast ⟨{0}, some 0, {0}, ∅, [true]⟩ 0 1
    (by decide) (by decide) (by decide)

/-- C1 counterexample: open one editor and dispose its panel.  The manager's
dispose handler (line 22) removes the editor from the set but never clears
`_activeEditor`, so the active reference still names editor 0 while the set
of live editors no longer contains it. -/
theorem activeEditor_member_counterexample :
    (runManager [ManagerEvent.resolve 0, ManagerEvent.panelDispose 0]).activeEditor
      = some 0
    ∧ 0 ∉ (runManager [ManagerEvent.resolve 0, ManagerEvent.panelDispose 0]).editors := by
  constructor
  · rfl
  · decide

/-- Inductive invariant of the manager: the active reference names a created
editor, and every created editor whose panel is not disposed is still in the
set. -/
def ManagerInv (m : ManagerState) : Prop :=
  (∀ e, m.activeEditor = some e → e ∈ m.created)
  ∧ ∀ e, e ∈ m.created → e ∉ m.disposedPanels → e ∈ m.editors

/-- The initial manager state satisfies the invariant. -/
theorem initManager_inv : ManagerInv initManager := by
  constructor
  · intro e h
    simp [initManager] at h
  · intro e h
    simp [initManager] at h

/-- Every manager step preserves the invariant. -/
theorem managerStep_inv (m : ManagerState) (ev : ManagerEvent)
    (h : ManagerInv m) : ManagerInv (managerStep m ev) := by
  obtain ⟨h1, h2⟩ := h
  cases ev with
  | resolve e =>
    simp only [managerStep, resolveEditor]
    split
    · exact ⟨h1, h2⟩
    · constructor
      · intro f hf
        simp only [setActiveEditor, Option.some.injEq] at hf
        subst hf
        simp [setActiveEditor]
      · intro f hf hfd
        simp only [setActiveEditor, Finset.mem_insert] at hf ⊢
        rcases hf with rfl | hf
        · exact Or.inl rfl
        · exact Or.inr (h2 f hf hfd)
  | panelDispose e =>
    simp only [managerStep, managerPanelDispose]
    split
    · constructor
      · intro f hf
        exact h1 f hf
      · intro f hf hfd
        simp only [Finset.mem_insert, not_or] at hfd
        exact Finset.mem_erase.mpr ⟨hfd.1, h2 f hf hfd.2⟩
    · exact ⟨h1, h2⟩
  | viewState e active =>
    simp only [managerStep, managerViewState]
    split
    · rename_i hcond
      split
      · constructor
        · intro f hf
          simp only [setActiveEditor, Option.some.injEq] at hf
          subst hf
          exact hcond.1
        · intro f hf hfd
          exact h2 f hf hfd
      · split
        · constructor
          · intro f hf
            exact absurd hf (by simp [setActiveEditor])
          · intro f hf hfd
            exact h2 f hf hfd
        · exact ⟨h1, h2⟩
    · exact ⟨h1, h2⟩

/-- The invariant holds in every reachable manager state. -/
theorem runManager_inv (evs : List ManagerEvent) : ManagerInv (runManager evs) := by
  have key : ∀ m, ManagerInv m → ManagerInv (evs.foldl managerStep m) := by
    induction evs with
    | nil => intro m h; exact h
    | cons ev t ih => intro m h; exact ih _ (managerStep_inv m ev h)
  exact key initManager initManager_inv

/-- C1 amended: in every reachable manager state, a present active-editor
reference names an editor that is a member of the live set or whose panel
has been disposed (disposal removes the editor from the set without clearing
the active reference). -/
theorem activeEditor_member_or_disposed (evs : List ManagerEvent) (e : Nat)
    (h : (runManager evs).activeEditor = some e) :
    e ∈ (runManager evs).editors ∨ e ∈ (runManager evs).disposedPanels := by
  obtain ⟨h1, h2⟩ := runManager_inv evs
  by_cases hd : e ∈ (runManager evs).disposedPanels
  · exact Or.inr hd
  · exact Or.inl (h2 e (h1 e h) hd)

/-- Witness for the amended C1 after opening a single editor. -/
theorem activeEditor_member_or_disposed_witness :
    0 ∈ (runManager [ManagerEvent.resolve 0]).editors
    ∨ 0 ∈ (runManager [ManagerEvent.resolve 0]).disposedPanels :=
  activeEditor_member_or_disposed [ManagerEvent.resolve 0] 0 (by decide)

/-- A resource path computation whose stat settled successfully never
rejects. -/
theorem getResourcePath_ok (toWebview : Uri → Uri) (r : Uri) (st : FileStat)
    (v : String) :
    ∃ s, getResourcePath toWebview r (Except.ok st) v = Except.ok s := by
  cases hres : getResourcePath toWebview r (Except.ok st) v with
  | error err =>
    exfalso
    unfold getResourcePath at hres
    by_cases hg : r.scheme = "git" <;> by_cases hz : st.size = 0 <;>
      by_cases hq : r.query = "" <;> simp [hg, hz, hq] at hres
  | ok s => exact ⟨s, rfl⟩

/-- Webview contents built over a successfully settled stat never reject. -/
theorem getWebiewContents_ok (toWebview : Uri → Uri) (cspSource : String)
    (isMac : Bool) (r : Uri) (st : FileStat) (vN nN : Nat) :
    ∃ h, getWebiewContents toWebview cspSource isMac r (Except.ok st) vN nN
      = Except.ok h := by
  obtain ⟨s, hs⟩ := getResourcePath_ok toWebview r st (Nat.repr vN)
  refine ⟨htmlTemplate cspSource (Nat.repr nN) (escapeAttribute (settingsJson isMac s)), ?_⟩
  simp [getWebiewContents, hs]

/-- C8: for a live editor, a filesystem-change event whose reported URI
matches the bound resource triggers exactly one assignment of the webview
HTML, and a change event for any other path leaves the editor completely
unchanged. -/
theorem fs_change_single_render (toWebview : Uri → Uri) (cspSource : String)
    (isMac : Bool) (st : FileStat) (vN nN : Nat) (eventUri otherUri : Uri)
    (e : EditorState)
    (hlive : e.editorState ≠ PreviewState.Disposed)
    (hmatch : Uri.toStr eventUri = Uri.toStr e.resource)
    (hmiss : Uri.toStr otherUri ≠ Uri.toStr e.resource) :
    (handleFsChange eventUri
        (getWebiewContents toWebview cspSource isMac e.resource (Except.ok st) vN nN)
        e).htmlAssignments = e.htmlAssignments + 1
    ∧ handleFsChange otherUri
        (getWebiewContents toWebview cspSource isMac e.resource (Except.ok st) vN nN)
        e = e := by
  obtain ⟨h, hh⟩ := getWebiewContents_ok toWebview cspSource isMac e.resource st vN nN
  constructor
  · simp [handleFsChange, hmatch, render, hlive, hh]
  · simp [handleFsChange, hmiss]

/-- Witness for C8 at a concrete live editor: a matching change event bumps
the HTML assignment count from 0 to 1, a non-matching one changes
nothing. -/
theorem fs_change_single_render_witness :
    (handleFsChange ⟨"file", "", "/a/diagram.bpmn", "", ""⟩
        (getWebiewContents id "csp" false
          (⟨PreviewState.Visible, ⟨"file", "", "/a/diagram.bpmn", "", ""⟩, none, 0, [], ⟨5, false⟩⟩ : EditorState).resource
          (Except.ok ⟨3⟩) 1 2)
        ⟨PreviewState.Visible, ⟨"file", "", "/a/diagram.bpmn", "", ""⟩, none, 0, [], ⟨5, false⟩⟩).htmlAssignments
      = (⟨PreviewState.Visible, ⟨"file", "", "/a/diagram.bpmn", "", ""⟩, none, 0, [], ⟨5, false⟩⟩ : EditorState).htmlAssignments + 1
    ∧ handleFsChange ⟨"file", "", "/b/other.bpmn", "", ""⟩
        (getWebiewContents id "csp" false
          (⟨PreviewState.Visible, ⟨"file", "", "/a/diagram.bpmn", "", ""⟩, none, 0, [], ⟨5, false⟩⟩ : EditorState).resource
          (Except.ok ⟨3⟩) 1 2)
        ⟨PreviewState.Visible, ⟨"file", "", "/a/diagram.bpmn", "", ""⟩, none, 0, [], ⟨5, false⟩⟩
      = ⟨PreviewState.Visible, ⟨"file", "", "/a/diagram.bpmn", "", ""⟩, none, 0, [], ⟨5, false⟩⟩ :=
  fs_change_single_render id "csp" false ⟨3⟩ 1 2
    ⟨"file", "", "/a/diagram.bpmn", "", ""⟩ ⟨"file", "", "/b/other.bpmn", "", ""⟩
    ⟨PreviewState.Visible, ⟨"file", "", "/a/diagram.bpmn", "", ""⟩, none, 0, [], ⟨5, false⟩⟩
    (by decide) (by decide) (by decide)

/-- Disposed is terminal: once the lifecycle state is Disposed, no sequence
of notifications leaves it. -/
theorem runEditor_disposed (evs : List EditorEvent) (e : EditorState)
    (h : e.editorState = PreviewState.Disposed) :
    (runEditor e evs).editorState = PreviewState.Disposed := by
  induction evs generalizing e with
  | nil => exact h
  | cons ev t ih =>
    cases ev with
    | viewState b =>
      apply ih
      simp [editorStep, handleViewState, update, h]
    | panelDispose =>
      apply ih
      rfl

/-- Characterization of the lifecycle state after any notification sequence
from a live state: Disposed exactly when a disposal occurred, otherwise
driven by the last reported focus value, otherwise unchanged. -/
theorem runEditor_editorState (evs : List EditorEvent) (e : EditorState)
    (h : e.editorState ≠ PreviewState.Disposed) :
    (runEditor e evs).editorState =
      if disposedEver evs then PreviewState.Disposed
      else
        match lastFocusOpt evs with
        | some true => PreviewState.Active
        | some false => PreviewState.Visible
        | none => e.editorState := by
  induction evs generalizing e with
  | nil => simp [runEditor, disposedEver, lastFocusOpt]
  | cons ev t ih =>
    cases ev with
    | panelDispose =>
      have hD : (runEditor (handleDispose e) t).editorState = PreviewState.Disposed :=
        runEditor_disposed t (handleDispose e) rfl
      have hstep : runEditor e (EditorEvent.panelDispose :: t)
          = runEditor (handleDispose e) t := rfl
      rw [hstep, hD]
      simp [disposedEver]
    | viewState b =>
      have hstate : (handleViewState b e).editorState
          = if b then PreviewState.Active else PreviewState.Visible := by
        cases b <;> simp [handleViewState, update, h]
      have hnd : (handleViewState b e).editorState ≠ PreviewState.Disposed := by
        rw [hstate]
        cases b <;> simp
      have hstep : runEditor e (EditorEvent.viewState b :: t)
          = runEditor (handleViewState b e) t := rfl
      rw [hstep, ih (handleViewState b e) hnd, hstate]
      have hde : disposedEver (EditorEvent.viewState b :: t) = disposedEver t := by
        simp [disposedEver]
      rw [hde]
      cases hd : disposedEver t with
      | true => simp
      | false =>
        cases hl : lastFocusOpt t with
        | none => cases b <;> simp [lastFocusOpt, hl]
        | some c => cases c <;> simp [lastFocusOpt, hl]

/-- The lifecycle state right after construction reflects the panel's focus
flag at construction time. -/
theorem mkEditor_editorState (r : Uri) (c : Except FsError String) (a : Bool) :
    (mkEditor r c a).editorState
      = if a then PreviewState.Active else PreviewState.Visible := by
  cases c <;> cases a <;> simp [mkEditor, render, update]

/-- C4: for any sequence of focus-change and disposal notifications
delivered to one constructed Editor, the lifecycle state afterwards is
Disposed exactly when a disposal notification was ever delivered (disposal
dominates everything after it), and is Active exactly when no disposal was
delivered and the panel's last reported focus value — the construction-time
report when the sequence reports none — was true. -/
theorem editor_focus_state_machine (r : Uri) (c : Except FsError String)
    (a0 : Bool) (evs : List EditorEvent) :
    ((runEditor (mkEditor r c a0) evs).editorState = PreviewState.Disposed
      ↔ disposedEver evs = true)
    ∧ ((runEditor (mkEditor r c a0) evs).editorState = PreviewState.Active
      ↔ (disposedEver evs = false ∧ lastFocus a0 evs = true)) := by
  have hnd : (mkEditor r c a0).editorState ≠ PreviewState.Disposed := by
    rw [mkEditor_editorState]
    cases a0 <;> simp
  rw [runEditor_editorState evs (mkEditor r c a0) hnd, mkEditor_editorState]
  unfold lastFocus
  cases hd : disposedEver evs with
  | true => simp
  | false =>
    cases hl : lastFocusOpt evs with
    | none => cases a0 <;> simp
    | some b => cases b <;> simp

/-- Numeric value of one decimal digit character. -/
def decDigit (c : Char) : Nat :=
  c.toNat - 48

/-- Numeric value of a decimal digit string, most significant first. -/
def decValue (l : List Char) : Nat :=
  l.foldl (fun acc c => 10 * acc + decDigit c) 0

/-- Core digit rendering with enough fuel equals the full rendering with the
accumulator appended. -/
theorem toDigitsCore_append (n : Nat) : ∀ (fuel : Nat) (ds : List Char),
    n < fuel → Nat.toDigitsCore 10 fuel n ds = Nat.toDigits 10 n ++ ds := by
  induction n using Nat.strong_induction_on with
  | _ n ih =>
    intro fuel ds hfuel
    match fuel with
    | 0 => omega
    | f + 1 =>
      by_cases h0 : n / 10 = 0
      · simp [Nat.toDigits, Nat.toDigitsCore, h0]
      · have hpos : 0 < n := by
          rcases Nat.eq_zero_or_pos n with rfl | hp
          · simp at h0
          · exact hp
        have hlt : n / 10 < n := Nat.div_lt_self hpos (by omega)
        have hsplit : Nat.toDigits 10 n
            = Nat.toDigits 10 (n / 10) ++ [Nat.digitChar (n % 10)] := by
          have : Nat.toDigitsCore 10 (n + 1) n []
              = Nat.toDigitsCore 10 n (n / 10) [Nat.digitChar (n % 10)] := by
            simp [Nat.toDigitsCore, h0]
          rw [Nat.toDigits, this, ih (n / 10) hlt n [Nat.digitChar (n % 10)] (by omega)]
        have hstep : Nat.toDigitsCore 10 (f + 1) n ds
            = Nat.toDigitsCore 10 f (n / 10) (Nat.digitChar (n % 10) :: ds) := by
          simp [Nat.toDigitsCore, h0]
        rw [hstep, ih (n / 10) hlt f (Nat.digitChar (n % 10) :: ds) (by omega), hsplit,
          List.append_assoc]
        rfl

/-- Splitting off the least significant digit of a multi-digit rendering. -/
theorem toDigits_split (n : Nat) (h0 : n / 10 ≠ 0) :
    Nat.toDigits 10 n = Nat.toDigits 10 (n / 10) ++ [Nat.digitChar (n % 10)] := by
  have hpos : 0 < n := by
    rcases Nat.eq_zero_or_pos n with rfl | hp
    · simp at h0
    · exact hp
  have hlt : n / 10 < n := Nat.div_lt_self hpos (by omega)
  have hcore : Nat.toDigitsCore 10 (n + 1) n []
      = Nat.toDigitsCore 10 n (n / 10) [Nat.digitChar (n % 10)] := by
    simp [Nat.toDigitsCore, h0]
  rw [Nat.toDigits, hcore, toDigitsCore_append (n / 10) n [Nat.digitChar (n % 10)] (by omega)]

/-- Decimal digit characters decode back to their value. -/
theorem decDigit_digitChar (d : Nat) (h : d < 10) :
    decDigit (Nat.digitChar d) = d := by
  interval_cases d <;> decide

/-- Decoding after appending one digit. -/
theorem decValue_append (l : List Char) (c : Char) :
    decValue (l ++ [c]) = 10 * decValue l + decDigit c := by
  simp [decValue, List.foldl_append]

/-- Round trip: decoding the decimal rendering of `n` gives back `n`. -/
theorem decValue_toDigits (n : Nat) : decValue (Nat.toDigits 10 n) = n := by
  induction n using Nat.strong_induction_on with
  | _ n ih =>
    by_cases h0 : n / 10 = 0
    · have hn : n < 10 := by omega
      have hone : Nat.toDigits 10 n = [Nat.digitChar (n % 10)] := by
        simp [Nat.toDigits, Nat.toDigitsCore, h0]
      rw [hone]
      have : decValue [Nat.digitChar (n % 10)] = decDigit (Nat.digitChar (n % 10)) := by
        simp [decValue]
      rw [this, decDigit_digitChar (n % 10) (Nat.mod_lt n (by omega))]
      omega
    · have hpos : 0 < n := by
        rcases Nat.eq_zero_or_pos n with rfl | hp
        · simp at h0
        · exact hp
      have hlt : n / 10 < n := Nat.div_lt_self hpos (by omega)
      rw [toDigits_split n h0, decValue_append, ih (n / 10) hlt,
        decDigit_digitChar (n % 10) (Nat.mod_lt n (by omega))]
      omega

/-- Two distinct naturals render to distinct decimal strings. -/
theorem nat_repr_injective (a b : Nat) (h : Nat.repr a = Nat.repr b) : a = b := by
  have hdata : (Nat.toDigits 10 a) = (Nat.toDigits 10 b) := by
    have := congrArg String.data h
    simpa [Nat.repr, List.asString] using this
  calc a = decValue (Nat.toDigits 10 a) := (decValue_toDigits a).symm
    _ = decValue (Nat.toDigits 10 b) := by rw [hdata]
    _ = b := decValue_toDigits b

/-- Left cancellation for string concatenation. -/
theorem str_append_cancel_left (a b c : String) (h : a ++ b = a ++ c) : b = c := by
  have := congrArg String.data h
  simp only [String.data_append] at this
  exact String.ext (List.append_cancel_left this)

/-- Right cancellation for string concatenation. -/
theorem str_append_cancel_right (a b c : String) (h : a ++ c = b ++ c) : a = b := by
  have := congrArg String.data h
  simp only [String.data_append] at this
  exact String.ext (List.append_cancel_right this)

/-- A version query string is never empty. -/
theorem version_ne_empty (s : String) : ("version=" ++ s) ≠ "" := by
  intro h
  have hlen := congrArg String.length h
  rw [String.length_append] at hlen
  have h8 : ("version=" : String).length = 8 := rfl
  have h0 : ("" : String).length = 0 := rfl
  omega

/-- Away from the placeholder case, a query-less resource resolves to the
conversion with the version query attached. -/
theorem getResourcePath_noquery (toWebview : Uri → Uri) (resource : Uri)
    (st : FileStat) (v : String) (hq : resource.query = "")
    (hp : resource.scheme ≠ "git" ∨ st.size ≠ 0) :
    getResourcePath toWebview resource (Except.ok st) v
      = Except.ok (Uri.toStr (Uri.withQuery (toWebview resource) ("version=" ++ v))) := by
  rcases hp with h | h
  · simp [getResourcePath, h, hq]
  · by_cases hg : resource.scheme = "git" <;> simp [getResourcePath, hg, h, hq]

/-- C9: for a resource without a query string, two renders at distinct
wall-clock instants compute two different resource URLs, because the version
token is the stringified timestamp of each render (line 127), freshly
computed rather than stored, and distinct timestamps stringify
differently. -/
theorem render_version_distinct (toWebview : Uri → Uri) (resource : Uri)
    (st : FileStat) (t1 t2 : Nat) (hq : resource.query = "")
    (hp : resource.scheme ≠ "git" ∨ st.size ≠ 0) (ht : t1 ≠ t2) :
    getResourcePath toWebview resource (Except.ok st) (Nat.repr t1)
      ≠ getResourcePath toWebview resource (Except.ok st) (Nat.repr t2) := by
  intro h
  rw [getResourcePath_noquery toWebview resource st (Nat.repr t1) hq hp,
    getResourcePath_noquery toWebview resource st (Nat.repr t2) hq hp] at h
  have hurl : Uri.toStr (Uri.withQuery (toWebview resource) ("version=" ++ Nat.repr t1))
      = Uri.toStr (Uri.withQuery (toWebview resource) ("version=" ++ Nat.repr t2)) := by
    simpa using h
  simp only [Uri.toStr, Uri.withQuery, version_ne_empty, if_false, if_neg] at hurl
  have h1 := str_append_cancel_right _ _ _ hurl
  have h2 := str_append_cancel_left _ _ _ h1
  have h3 := str_append_cancel_left _ _ _ h2
  have h4 := str_append_cancel_left _ _ _ h3
  exact ht (nat_repr_injective t1 t2 h4)

/-- Witness for C9 at a concrete query-less resource and the instants 1
and 2. -/
theorem render_version_distinct_witness :
    getResourcePath id ⟨"file", "", "/a/diagram.bpmn", "", ""⟩ (Except.ok ⟨3⟩) (Nat.repr 1)
      ≠ getResourcePath id ⟨"file", "", "/a/diagram.bpmn", "", ""⟩ (Except.ok ⟨3⟩) (Nat.repr 2) :=
  render_version_distinct id ⟨"file", "", "/a/diagram.bpmn", "", ""⟩ ⟨3⟩ 1 2
    rfl (Or.inl (by decide)) (by decide)

end BpmnEditor
